import Mathlib

/-!
# Verification of the per-instrument trading state machine and paper broker

Shallow embedding of the core of the `part3Final` repository:

* the pending-order paper engine of `src/unnamed/part_005` (a variant of
  `server/fyersClient.ts`): LTP cache, limit orders, crossing fills;
* the instant-fill paper engine of `src/server/fyersClient.ts` (first
  variant in the file): position averaging, realized P&L, brokerage,
  trade log, `getPnL`;
* the quantity sizing helpers `computeQtyFromPnLContext`
  (`src/server/fyersClient.ts`) and `calculateQuantityForOrderValue`
  (`src/server/quantityCalc.ts`);
* the per-symbol state machine of `src/unnamed/part_002` (a variant of
  `server/stateMachine.ts`), together with the BUY-window timeout handler
  of the second variant in `src/server/stateMachine.ts`.

Prices are modelled as rationals, quantities as integers, epoch-millisecond
times as integers.  JavaScript `Math.round` is `⌊x + 1/2⌋` (round half
towards positive infinity), `Math.floor` is `⌊x⌋`.
-/

namespace Trading

/-- JavaScript `Math.round`: round half towards positive infinity. -/
def jsRound (x : ℚ) : ℤ := ⌊x + 1/2⌋

/-- `roundPrice` from `src/server/fyersClient.ts`:
`Math.round(x * 100) / 100` — two-decimal rounding, no tick snapping. -/
def roundPrice (x : ℚ) : ℚ := (jsRound (x * 100) : ℚ) / 100

inductive Side where
  | buy
  | sell
deriving DecidableEq, Repr

inductive OrderStatus where
  | pending
  | filled
  | cancelled
deriving DecidableEq, Repr

/-- Position record shared by both paper engines
(`{posQty, avgPrice, realized}` in the source). `realized` is gross
realized P&L, before brokerage. -/
structure Position where
  posQty : ℤ
  avgPrice : ℚ
  realized : ℚ
deriving DecidableEq, Repr

/-- The all-zero position created by `ensurePos` / `getOrInitPos`. -/
def Position.flat : Position := ⟨0, 0, 0⟩

/-- Positions are kept in a `Map<string, Position>`; we model the map as an
association list in insertion order. -/
abbrev Positions := List (String × Position)

/-- Read a symbol's position, defaulting to the all-zero position
(`getOrInitPos` / `ensurePos`). -/
def getPos : Positions → String → Position
  | [], _ => Position.flat
  | (s, p) :: rest, sym => if s = sym then p else getPos rest sym

/-- Write a symbol's position (mutation of the `Map` entry). -/
def setPos : Positions → String → Position → Positions
  | [], sym, p => [(sym, p)]
  | (s, q) :: rest, sym, p =>
      if s = sym then (sym, p) :: rest else (s, q) :: setPos rest sym p

theorem getPos_setPos_self (ps : Positions) (sym : String) (p : Position) :
    getPos (setPos ps sym p) sym = p := by
  induction ps with
  | nil => simp [setPos, getPos]
  | cons a rest ih =>
      obtain ⟨s, q⟩ := a
      by_cases h : s = sym
      · simp [setPos, getPos, h]
      · simp [setPos, getPos, h, ih]

theorem getPos_setPos_ne (ps : Positions) (sym sym' : String) (p : Position)
    (h : sym ≠ sym') : getPos (setPos ps sym p) sym' = getPos ps sym' := by
  induction ps with
  | nil => simp [setPos, getPos, h]
  | cons a rest ih =>
      obtain ⟨s, q⟩ := a
      by_cases hs : s = sym
      · subst hs
        simp [setPos, getPos, h]
      · simp [setPos, getPos, hs, ih]

/-- Total gross realized P&L over all positions (first pass of `getPnL`). -/
def sumRealized (ps : Positions) : ℚ := (ps.map (fun e => e.2.realized)).sum

theorem sumRealized_setPos (ps : Positions) (sym : String) (p : Position) :
    sumRealized (setPos ps sym p) + (getPos ps sym).realized
      = sumRealized ps + p.realized := by
  induction ps with
  | nil => simp [setPos, getPos, sumRealized, Position.flat]
  | cons a rest ih =>
      obtain ⟨s, q⟩ := a
      by_cases h : s = sym
      · simp [setPos, getPos, h, sumRealized]
        ring
      · simp only [setPos, getPos, if_neg h, sumRealized, List.map_cons,
          List.sum_cons] at *
        linarith

/-! ## Pending-order paper engine (`src/unnamed/part_005`)

This variant of `server/fyersClient.ts` keeps simulated limit orders in an
order book (`ORDERS`), caches the last tick per symbol (`LAST_TICK`), and
fills pending orders whenever the cached or incoming price crosses the
limit.  We model paper mode (`PAPERTRADE=true`); order ids are naturals. -/

namespace P5

open Trading

/-- `LAST_TICK` entry: `{ltp, ts}`. -/
structure LastTick where
  ltp : ℚ
  ts : ℤ
deriving DecidableEq, Repr

/-- A simulated order (`PaperOrder` in the source; timestamps omitted). -/
structure PaperOrder where
  id : ℕ
  symbol : String
  side : Side
  qty : ℤ
  limitPrice : ℚ
  status : OrderStatus
deriving DecidableEq, Repr

/-- Engine state: LTP cache, order book in insertion order, positions,
and the order-id counter `orderSeq`. -/
structure P5State where
  lastTick : List (String × LastTick)
  orders : List PaperOrder
  pos : Positions
  orderSeq : ℕ
deriving Repr

def lookupTick : List (String × LastTick) → String → Option LastTick
  | [], _ => none
  | (s, t) :: rest, sym => if s = sym then some t else lookupTick rest sym

def setTick : List (String × LastTick) → String → LastTick → List (String × LastTick)
  | [], sym, t => [(sym, t)]
  | (s, u) :: rest, sym, t =>
      if s = sym then (sym, t) :: rest else (s, u) :: setTick rest sym t

/-- `shouldFill`: BUY fills when `ltp ≤ limit`, SELL when `ltp ≥ limit`. -/
def shouldFill (o : PaperOrder) (ltp : ℚ) : Bool :=
  match o.side with
  | .buy => decide (ltp ≤ o.limitPrice)
  | .sell => decide (ltp ≥ o.limitPrice)

/-- The position update performed by `tryFillPending` when an order fills.
Fills are applied at the order's `limitPrice`, never at the tick price.
Note the `(newQty || 1)` guards and the `avgPrice = limitPrice` assignment
when the quantity lands exactly on zero. -/
def fillPos (p : Position) (side : Side) (qty : ℤ) (limit : ℚ) : Position :=
  match side with
  | .buy =>
      let newQty := p.posQty + qty
      if p.posQty ≥ 0 then
        { p with
          avgPrice := (p.avgPrice * p.posQty + limit * qty)
            / (if newQty = 0 then 1 else (newQty : ℚ)),
          posQty := newQty }
      else
        let coverQty := min qty (-p.posQty)
        let realized' := p.realized + (p.avgPrice - limit) * coverQty
        let q1 := p.posQty + coverQty
        let remainder := qty - coverQty
        if remainder > 0 then
          { posQty := q1 + remainder, avgPrice := limit, realized := realized' }
        else if q1 = 0 then
          { posQty := q1, avgPrice := limit, realized := realized' }
        else
          { p with posQty := q1, realized := realized' }
  | .sell =>
      let newQty := p.posQty - qty
      if p.posQty ≤ 0 then
        { p with
          avgPrice := (p.avgPrice * (-p.posQty) + limit * qty)
            / (if -newQty = 0 then 1 else ((-newQty : ℤ) : ℚ)),
          posQty := newQty }
      else
        let exitQty := min qty p.posQty
        let realized' := p.realized + (limit - p.avgPrice) * exitQty
        let q1 := p.posQty - exitQty
        let remainder := qty - exitQty
        if remainder > 0 then
          { posQty := q1 - remainder, avgPrice := limit, realized := realized' }
        else if q1 = 0 then
          { posQty := q1, avgPrice := limit, realized := realized' }
        else
          { p with posQty := q1, realized := realized' }

/-- Condition under which `tryFillPending symbol ltp` fills an order. -/
def fillCond (symbol : String) (ltp : ℚ) (o : PaperOrder) : Bool :=
  decide (o.symbol = symbol) && decide (o.status = OrderStatus.pending)
    && shouldFill o ltp

/-- Effect of `tryFillPending` on one order record. -/
def markFill (symbol : String) (ltp : ℚ) (o : PaperOrder) : PaperOrder :=
  if fillCond symbol ltp o then { o with status := .filled } else o

/-- Position-book effect of filling order `o` for `symbol`
(`getOrInitPos(symbol)` mutation inside `tryFillPending`). -/
def applyFill (symbol : String) (ps : Positions) (o : PaperOrder) : Positions :=
  setPos ps symbol (fillPos (getPos ps symbol) o.side o.qty o.limitPrice)

/-- One iteration of the `tryFillPending` loop. -/
def tryFillStep (symbol : String) (ltp : ℚ)
    (acc : List PaperOrder × Positions) (o : PaperOrder) :
    List PaperOrder × Positions :=
  if fillCond symbol ltp o then
    (acc.1 ++ [{ o with status := OrderStatus.filled }], applyFill symbol acc.2 o)
  else
    (acc.1 ++ [o], acc.2)

/-- `tryFillPending(symbol, ltp)`: fill every pending order of `symbol`
whose limit is crossed by `ltp`, in order-book order, updating the
position at the order's limit price. -/
def tryFillPending (st : P5State) (symbol : String) (ltp : ℚ) : P5State :=
  let r := st.orders.foldl (tryFillStep symbol ltp) ([], st.pos)
  { st with orders := r.1, pos := r.2 }

/-- `placeLimitOrderV3` request (paper mode). -/
structure PlaceOrderReq where
  symbol : String
  side : Side
  qty : ℤ
  limitPrice : ℚ
deriving Repr

/-- `placeLimitOrderV3` (paper): register a PENDING order with
`qty = max(1, ⌊qty⌋)`, then, if a cached price exists for the symbol, run
`tryFillPending` at that cached price. -/
def placeLimitOrderV3 (st : P5State) (req : PlaceOrderReq) : P5State × ℕ :=
  let id := st.orderSeq
  let o : PaperOrder :=
    ⟨id, req.symbol, req.side, max 1 req.qty, req.limitPrice, .pending⟩
  let st1 := { st with orders := st.orders ++ [o], orderSeq := st.orderSeq + 1 }
  match lookupTick st.lastTick req.symbol with
  | some t => (tryFillPending st1 req.symbol t.ltp, id)
  | none => (st1, id)

/-- `onTickFromMarket`: update the LTP cache, then try to fill pending
paper orders for that symbol at the incoming price. -/
def onTickFromMarket (st : P5State) (symbol : String) (ltp : ℚ) (ts : ℤ) :
    P5State :=
  let st1 := { st with lastTick := setTick st.lastTick symbol ⟨ltp, ts⟩ }
  tryFillPending st1 symbol ltp

/-- The empty engine (`ORDERS`, `POS`, `LAST_TICK` all empty; ids from 1). -/
def P5State.init : P5State := ⟨[], [], [], 1⟩

theorem tryFill_foldl_spec (symbol : String) (ltp : ℚ) (orders : List PaperOrder)
    (acc : List PaperOrder × Positions) :
    orders.foldl (tryFillStep symbol ltp) acc
      = (acc.1 ++ orders.map (markFill symbol ltp),
         (orders.filter (fillCond symbol ltp)).foldl (applyFill symbol) acc.2) := by
  induction orders generalizing acc with
  | nil => simp
  | cons o rest ih =>
      by_cases h : fillCond symbol ltp o
      · simp [List.foldl_cons, tryFillStep, h, ih, markFill, List.filter_cons]
      · simp [List.foldl_cons, tryFillStep, h, ih, markFill, List.filter_cons]

theorem tryFillPending_orders (st : P5State) (symbol : String) (ltp : ℚ) :
    (tryFillPending st symbol ltp).orders
      = st.orders.map (markFill symbol ltp) := by
  simp [tryFillPending, tryFill_foldl_spec]

theorem tryFillPending_pos (st : P5State) (symbol : String) (ltp : ℚ) :
    (tryFillPending st symbol ltp).pos
      = (st.orders.filter (fillCond symbol ltp)).foldl (applyFill symbol) st.pos := by
  simp [tryFillPending, tryFill_foldl_spec]

/-- The order record appended by `placeLimitOrderV3` before any fill. -/
def newOrderOf (st : P5State) (req : PlaceOrderReq) : PaperOrder :=
  ⟨st.orderSeq, req.symbol, req.side, max 1 req.qty, req.limitPrice, .pending⟩

theorem map_markFill_id (symbol : String) (ltp : ℚ) (l : List PaperOrder)
    (h : ∀ o ∈ l, fillCond symbol ltp o = false) :
    l.map (markFill symbol ltp) = l := by
  induction l with
  | nil => simp
  | cons o rest ih =>
      have ho := h o (by simp)
      simp only [List.map_cons, markFill, ho, Bool.false_eq_true, if_false]
      rw [ih (fun o' ho' => h o' (by simp [ho']))]

theorem filter_fillCond_nil (symbol : String) (ltp : ℚ) (l : List PaperOrder)
    (h : ∀ o ∈ l, fillCond symbol ltp o = false) :
    l.filter (fillCond symbol ltp) = [] := by
  rw [List.filter_eq_nil_iff]
  intro o ho
  simp [h o ho]

theorem placeLimitOrderV3_cached (st : P5State) (req : PlaceOrderReq)
    (t : LastTick) (ht : lookupTick st.lastTick req.symbol = some t) :
    (placeLimitOrderV3 st req).1
      = tryFillPending
          ⟨st.lastTick, st.orders ++ [newOrderOf st req], st.pos, st.orderSeq + 1⟩
          req.symbol t.ltp := by
  simp [placeLimitOrderV3, ht, newOrderOf]

theorem placeLimitOrderV3_nocache (st : P5State) (req : PlaceOrderReq)
    (ht : lookupTick st.lastTick req.symbol = none) :
    (placeLimitOrderV3 st req).1
      = ⟨st.lastTick, st.orders ++ [newOrderOf st req], st.pos, st.orderSeq + 1⟩ := by
  simp [placeLimitOrderV3, ht, newOrderOf]

end P5

open Trading P5

/-- Claim C1: on `placeLimitOrderV3`, if a cached price exists for the
symbol and crosses the limit (BUY: `price ≤ limit`, SELL:
`price ≥ limit`), the order fills immediately and the position is updated
at the order's limit price; if no cached price crosses, the order is
queued `PENDING` and the positions are untouched; and on each later tick for
the symbol (`onTickFromMarket`), every pending order of that symbol whose
limit is crossed is filled at its own limit price (`applyFill` uses only
`o.limitPrice`, never the tick price), all other orders unchanged. -/
theorem c1_place_limit_fill_policy (st : P5State) (req : PlaceOrderReq) :
    (∀ t, lookupTick st.lastTick req.symbol = some t →
      shouldFill (newOrderOf st req) t.ltp = true →
      (∀ o ∈ st.orders, fillCond req.symbol t.ltp o = false) →
      (placeLimitOrderV3 st req).1.orders
          = st.orders ++ [{ newOrderOf st req with status := .filled }] ∧
        (placeLimitOrderV3 st req).1.pos
          = applyFill req.symbol st.pos (newOrderOf st req))
    ∧
    (∀ t, lookupTick st.lastTick req.symbol = some t →
      shouldFill (newOrderOf st req) t.ltp = false →
      (∀ o ∈ st.orders, fillCond req.symbol t.ltp o = false) →
      (placeLimitOrderV3 st req).1.orders = st.orders ++ [newOrderOf st req] ∧
        (placeLimitOrderV3 st req).1.pos = st.pos)
    ∧
    (lookupTick st.lastTick req.symbol = none →
      (placeLimitOrderV3 st req).1.orders = st.orders ++ [newOrderOf st req] ∧
        (placeLimitOrderV3 st req).1.pos = st.pos)
    ∧
    (∀ symbol ltp ts,
      (onTickFromMarket st symbol ltp ts).orders
          = st.orders.map (markFill symbol ltp) ∧
        (onTickFromMarket st symbol ltp ts).pos
          = (st.orders.filter (fillCond symbol ltp)).foldl (applyFill symbol)
              st.pos) := by
  have hcondNew : ∀ ltp, shouldFill (newOrderOf st req) ltp = true →
      fillCond req.symbol ltp (newOrderOf st req) = true := by
    intro ltp h
    simp only [newOrderOf] at h ⊢
    simp [fillCond, h]
  have hcondNewF : ∀ ltp, shouldFill (newOrderOf st req) ltp = false →
      fillCond req.symbol ltp (newOrderOf st req) = false := by
    intro ltp h
    simp only [newOrderOf] at h ⊢
    simp [fillCond, h]
  refine ⟨?_, ?_, ?_, ?_⟩
  · intro t ht hfill hclean
    rw [placeLimitOrderV3_cached st req t ht]
    constructor
    · rw [tryFillPending_orders]
      show (st.orders ++ [newOrderOf st req]).map (markFill req.symbol t.ltp) = _
      rw [List.map_append, map_markFill_id req.symbol t.ltp st.orders hclean]
      simp [markFill, hcondNew t.ltp hfill]
    · rw [tryFillPending_pos]
      show ((st.orders ++ [newOrderOf st req]).filter
          (fillCond req.symbol t.ltp)).foldl (applyFill req.symbol) st.pos = _
      rw [List.filter_append, filter_fillCond_nil req.symbol t.ltp st.orders hclean]
      simp [List.filter_cons, hcondNew t.ltp hfill]
  · intro t ht hfill hclean
    rw [placeLimitOrderV3_cached st req t ht]
    constructor
    · rw [tryFillPending_orders]
      show (st.orders ++ [newOrderOf st req]).map (markFill req.symbol t.ltp) = _
      rw [List.map_append, map_markFill_id req.symbol t.ltp st.orders hclean]
      simp [markFill, hcondNewF t.ltp hfill]
    · rw [tryFillPending_pos]
      show ((st.orders ++ [newOrderOf st req]).filter
          (fillCond req.symbol t.ltp)).foldl (applyFill req.symbol) st.pos = _
      rw [List.filter_append, filter_fillCond_nil req.symbol t.ltp st.orders hclean]
      simp [List.filter_cons, hcondNewF t.ltp hfill]
  · intro ht
    rw [placeLimitOrderV3_nocache st req ht]
    exact ⟨rfl, rfl⟩
  · intro symbol ltp ts
    exact ⟨tryFillPending_orders _ symbol ltp, tryFillPending_pos _ symbol ltp⟩

/-- Concrete engine state for the C1 witness: cached price 100 for `"S"`,
no orders, no positions. -/
def c1st : P5State := ⟨[("S", ⟨100, 0⟩)], [], [], 1⟩

/-- BUY 75 @ 100.5: the cached price 100 crosses the limit. -/
def c1req : PlaceOrderReq := ⟨"S", .buy, 75, 201/2⟩

theorem c1_witness :
    (placeLimitOrderV3 c1st c1req).1.orders
        = c1st.orders ++ [{ newOrderOf c1st c1req with status := .filled }] ∧
      (placeLimitOrderV3 c1st c1req).1.pos
        = applyFill c1req.symbol c1st.pos (newOrderOf c1st c1req) :=
  (c1_place_limit_fill_policy c1st c1req).1 ⟨100, 0⟩
    (by simp [c1st, c1req, lookupTick])
    (by norm_num [shouldFill, newOrderOf, c1st, c1req])
    (by intro o ho; simp [c1st] at ho)

/-- Run exhibiting the C9 violation in the pending-order engine: enter
long 75 @ 100, then a SELL 75 @ 110 pends and fills on the next tick;
the position quantity reaches 0 but `avgPrice` is set to the fill's limit
price 110, not 0. -/
def c9run : P5State :=
  let s1 := onTickFromMarket P5State.init ("S") 100 0
  let s2 := (placeLimitOrderV3 s1 ⟨"S", .buy, 75, 100⟩).1
  let s3 := (placeLimitOrderV3 s2 ⟨"S", .sell, 75, 110⟩).1
  onTickFromMarket s3 ("S") 110 1

/-- Claim C9 counterexample: after this fill sequence the paper broker of
`src/unnamed/part_005` holds a position with `posQty = 0` and
`avgPrice = 110 ≠ 0`, refuting `qty = 0 ⇒ avg_price = 0` for that engine. -/
theorem c9_counterexample :
    (getPos c9run.pos ("S")).posQty = 0 ∧
      (getPos c9run.pos ("S")).avgPrice = 110 ∧
      ¬(getPos c9run.pos ("S")).avgPrice = 0 := by
  norm_num [c9run, P5State.init, onTickFromMarket, placeLimitOrderV3,
    tryFillPending, tryFillStep, fillCond, shouldFill, markFill, applyFill,
    fillPos, newOrderOf, lookupTick, setTick, Trading.getPos, Trading.setPos,
    Trading.Position.flat]

/-! ## Instant-fill paper engine (`src/server/fyersClient.ts`, first variant)

Here every `placeLimitBuy` / `placeLimitSell` fills immediately at the
limit price and appends a trade-log entry.  SELLs that close against a
long pay brokerage `-BROKERAGE_RATE * (prevAvg * closingQty)`; the trade
log records the **net** realized delta (gross + brokerage). -/

namespace FC

open Trading

/-- `TradeLogEntry` (timestamp omitted; it never enters any computation). -/
structure TradeLogEntry where
  symbol : String
  side : Side
  qty : ℤ
  price : ℚ
  realized : ℚ
  brokerage : ℚ
  tag : Option String
deriving DecidableEq, Repr

/-- Body of `applyBuyToPosition` on the single mutated position record. -/
def buyPos (p : Position) (qty : ℤ) (price : ℚ) : Position :=
  if p.posQty ≥ 0 then
    let newQty := p.posQty + qty
    if newQty = 0 then { p with posQty := 0, avgPrice := 0 }
    else
      let totalCost := p.posQty * p.avgPrice + qty * price
      { p with posQty := newQty, avgPrice := totalCost / newQty }
  else
    let closingQty := min qty (-p.posQty)
    let remainingQty := p.posQty + closingQty
    let realized' := p.realized + (p.avgPrice - price) * closingQty
    if remainingQty = 0 then ⟨0, 0, realized'⟩
    else if remainingQty < 0 then ⟨remainingQty, p.avgPrice, realized'⟩
    else ⟨remainingQty, price, realized'⟩

/-- Body of `applySellToPosition`; also returns `realizedForThisTrade`. -/
def sellPos (p : Position) (qty : ℤ) (price : ℚ) : Position × ℚ :=
  if p.posQty ≤ 0 then
    let newQty := p.posQty - qty
    if newQty = 0 then ({ p with posQty := 0, avgPrice := 0 }, 0)
    else
      let totalProceeds := p.posQty * p.avgPrice - qty * price
      ({ p with posQty := newQty, avgPrice := totalProceeds / newQty }, 0)
  else
    let closingQty := min qty p.posQty
    let remainingQty := p.posQty - closingQty
    let r := (price - p.avgPrice) * closingQty
    let realized' := p.realized + r
    if remainingQty = 0 then (⟨0, 0, realized'⟩, r)
    else if remainingQty > 0 then (⟨remainingQty, p.avgPrice, realized'⟩, r)
    else (⟨remainingQty, price, realized'⟩, r)

/-- `applyBuyToPosition(sym, qty, price)` over the positions map. -/
def applyBuyToPosition (ps : Positions) (sym : String) (qty : ℤ) (price : ℚ) :
    Positions :=
  setPos ps sym (buyPos (getPos ps sym) qty price)

/-- `applySellToPosition(sym, qty, price)` over the positions map. -/
def applySellToPosition (ps : Positions) (sym : String) (qty : ℤ) (price : ℚ) :
    Positions × ℚ :=
  let r := sellPos (getPos ps sym) qty price
  (setPos ps sym r.1, r.2)

/-- Broker state: positions map plus append-only trade log. -/
structure BrokerState where
  positions : Positions
  trades : List TradeLogEntry
deriving Repr

def BrokerState.init : BrokerState := ⟨[], []⟩

/-- `placeLimitBuy`: instant full fill at the limit; the BUY trade-log
entry records zero realized delta and zero brokerage. -/
def placeLimitBuy (st : BrokerState) (sym : String) (qty : ℤ) (limitPrice : ℚ)
    (tag : Option String) : BrokerState :=
  { positions := applyBuyToPosition st.positions sym qty limitPrice,
    trades := st.trades ++ [⟨sym, .buy, qty, limitPrice, 0, 0, tag⟩] }

/-- `placeLimitSell`: instant full fill at the limit.  Brokerage
`-rate * (prevAvg * closingQty)` is charged when closing or reducing a
long; the trade-log `realized` field stores the **net** figure
`realizedForTrade + brokerageForTrade`. -/
def placeLimitSell (rate : ℚ) (st : BrokerState) (sym : String) (qty : ℤ)
    (limitPrice : ℚ) (tag : Option String) : BrokerState :=
  let prevQty := (getPos st.positions sym).posQty
  let prevAvg := (getPos st.positions sym).avgPrice
  let r := applySellToPosition st.positions sym qty limitPrice
  let brokerageForTrade :=
    if prevQty > 0 then -rate * (prevAvg * (min qty prevQty : ℤ)) else 0
  { positions := r.1,
    trades := st.trades
      ++ [⟨sym, .sell, qty, limitPrice, r.2 + brokerageForTrade,
            brokerageForTrade, tag⟩] }

def sumTradeRealized (ts : List TradeLogEntry) : ℚ :=
  (ts.map (fun t => t.realized)).sum

def sumTradeBrokerage (ts : List TradeLogEntry) : ℚ :=
  (ts.map (fun t => t.brokerage)).sum

/-- Result shape of `getPnL` (the `bySymbol` breakdown is omitted). -/
structure PnL where
  realized : ℚ
  unrealized : ℚ
  total : ℚ
  brokerage : ℚ
  grossRealized : ℚ
deriving Repr

/-- `getPnL`: gross realized is summed over positions, brokerage over the
trade log; net realized is gross plus brokerage.  `ltp` is the LTP cache
(`nowLtp`). -/
def getPnL (ltp : String → Option ℚ) (st : BrokerState) : PnL :=
  let grossRealized := sumRealized st.positions
  let unrealized := (st.positions.map (fun e =>
    match ltp e.1 with
    | some l => if e.2.posQty ≠ 0 then (l - e.2.avgPrice) * e.2.posQty else 0
    | none => 0)).sum
  let brokerage := sumTradeBrokerage st.trades
  let netRealized := grossRealized + brokerage
  ⟨netRealized, unrealized, netRealized + unrealized, brokerage, grossRealized⟩

/-- A fill request routed to `placeLimitBuy` / `placeLimitSell`. -/
inductive FillEv where
  | buy (sym : String) (qty : ℤ) (price : ℚ) (tag : Option String)
  | sell (sym : String) (qty : ℤ) (price : ℚ) (tag : Option String)
deriving DecidableEq, Repr

/-- Run a sequence of fills through the instant-fill engine. -/
def runFills (rate : ℚ) : BrokerState → List FillEv → BrokerState
  | st, [] => st
  | st, .buy s q p tg :: evs => runFills rate (placeLimitBuy st s q p tg) evs
  | st, .sell s q p tg :: evs =>
      runFills rate (placeLimitSell rate st s q p tg) evs

/-- `noShortCover`: every BUY in the sequence lands on a non-negative
position (the long-only discipline of the machine; a BUY covering a short
would book realized P&L that the BUY trade-log entry records as 0). -/
def noShortCover (rate : ℚ) : BrokerState → List FillEv → Bool
  | _, [] => true
  | st, .buy s q p tg :: evs =>
      decide ((getPos st.positions s).posQty ≥ 0)
        && noShortCover rate (placeLimitBuy st s q p tg) evs
  | st, .sell s q p tg :: evs =>
      noShortCover rate (placeLimitSell rate st s q p tg) evs

theorem buyPos_realized (p : Position) (qty : ℤ) (price : ℚ)
    (h : p.posQty ≥ 0) : (buyPos p qty price).realized = p.realized := by
  simp only [buyPos, if_pos h]
  split <;> rfl

theorem sellPos_realized (p : Position) (qty : ℤ) (price : ℚ) :
    (sellPos p qty price).1.realized = p.realized + (sellPos p qty price).2 := by
  unfold sellPos
  dsimp only
  split_ifs <;> simp

theorem buyPos_inv (p : Position) (qty : ℤ) (price : ℚ)
    (h : (buyPos p qty price).posQty = 0) : (buyPos p qty price).avgPrice = 0 := by
  unfold buyPos at h ⊢
  dsimp only at h ⊢
  split_ifs at h ⊢ <;> simp_all

theorem sellPos_inv (p : Position) (qty : ℤ) (price : ℚ)
    (h : (sellPos p qty price).1.posQty = 0) :
    (sellPos p qty price).1.avgPrice = 0 := by
  unfold sellPos at h ⊢
  dsimp only at h ⊢
  split_ifs at h ⊢ <;> simp_all

theorem sumRealized_applyBuy (ps : Positions) (s : String) (q : ℤ) (p : ℚ)
    (h : (getPos ps s).posQty ≥ 0) :
    sumRealized (applyBuyToPosition ps s q p) = sumRealized ps := by
  unfold applyBuyToPosition
  have hs := sumRealized_setPos ps s (buyPos (getPos ps s) q p)
  rw [buyPos_realized _ _ _ h] at hs
  linarith

theorem sumRealized_applySell (ps : Positions) (s : String) (q : ℤ) (p : ℚ) :
    sumRealized (applySellToPosition ps s q p).1
      = sumRealized ps + (sellPos (getPos ps s) q p).2 := by
  unfold applySellToPosition
  have hs := sumRealized_setPos ps s (sellPos (getPos ps s) q p).1
  rw [sellPos_realized] at hs
  dsimp only
  linarith

theorem c8_aux (rate : ℚ) (evs : List FillEv) (st : BrokerState)
    (hinv : sumTradeRealized st.trades
      = sumRealized st.positions + sumTradeBrokerage st.trades)
    (h : noShortCover rate st evs = true) :
    sumTradeRealized (runFills rate st evs).trades
      = sumRealized (runFills rate st evs).positions
        + sumTradeBrokerage (runFills rate st evs).trades := by
  induction evs generalizing st with
  | nil => simpa [runFills] using hinv
  | cons ev evs ih =>
      cases ev with
      | buy s q p tg =>
          rw [noShortCover, Bool.and_eq_true, decide_eq_true_eq] at h
          refine ih (placeLimitBuy st s q p tg) ?_ h.2
          have hpos := sumRealized_applyBuy st.positions s q p h.1
          simp only [placeLimitBuy, sumTradeRealized, sumTradeBrokerage,
            List.map_append, List.sum_append, List.map_cons, List.map_nil,
            List.sum_cons, List.sum_nil] at *
          rw [hpos]
          linarith
      | sell s q p tg =>
          rw [noShortCover] at h
          refine ih (placeLimitSell rate st s q p tg) ?_ h
          have hpos := sumRealized_applySell st.positions s q p
          simp only [placeLimitSell, applySellToPosition, sumTradeRealized,
            sumTradeBrokerage, List.map_append, List.sum_append, List.map_cons,
            List.map_nil, List.sum_cons, List.sum_nil] at *
          rw [hpos]
          ring_nf
          ring_nf at hinv
          linarith

theorem c9_aux (rate : ℚ) (evs : List FillEv) (st : BrokerState)
    (hinv : ∀ sym, (getPos st.positions sym).posQty = 0 →
      (getPos st.positions sym).avgPrice = 0) :
    ∀ sym, (getPos (runFills rate st evs).positions sym).posQty = 0 →
      (getPos (runFills rate st evs).positions sym).avgPrice = 0 := by
  induction evs generalizing st with
  | nil => simpa [runFills] using hinv
  | cons ev evs ih =>
      cases ev with
      | buy s q p tg =>
          refine ih (placeLimitBuy st s q p tg) ?_
          intro sym h0
          simp only [placeLimitBuy, applyBuyToPosition] at h0 ⊢
          by_cases hs : s = sym
          · subst hs
            rw [getPos_setPos_self] at h0 ⊢
            exact buyPos_inv _ _ _ h0
          · rw [getPos_setPos_ne _ _ _ _ hs] at h0 ⊢
            exact hinv sym h0
      | sell s q p tg =>
          refine ih (placeLimitSell rate st s q p tg) ?_
          intro sym h0
          simp only [placeLimitSell, applySellToPosition] at h0 ⊢
          by_cases hs : s = sym
          · subst hs
            rw [getPos_setPos_self] at h0 ⊢
            exact sellPos_inv _ _ _ h0
          · rw [getPos_setPos_ne _ _ _ _ hs] at h0 ⊢
            exact hinv sym h0

end FC

open FC

/-- Claim C8 (amended): for every fill sequence in which no BUY covers a
short position, the sum of the trade-log `realized` deltas equals the
P&L report's **net** realized figure `pnl.realized`
(`= realized_gross + brokerage`), not the gross figure, and the sum of
the `brokerage` deltas equals `pnl.brokerage`. -/
theorem c8_trade_log_sums (rate : ℚ) (ltp : String → Option ℚ)
    (evs : List FillEv) (h : noShortCover rate BrokerState.init evs = true) :
    sumTradeRealized (runFills rate BrokerState.init evs).trades
        = (getPnL ltp (runFills rate BrokerState.init evs)).realized ∧
      sumTradeBrokerage (runFills rate BrokerState.init evs).trades
        = (getPnL ltp (runFills rate BrokerState.init evs)).brokerage := by
  have hmain := c8_aux rate evs BrokerState.init
    (by simp [BrokerState.init, sumTradeRealized, sumTradeBrokerage,
      Trading.sumRealized]) h
  constructor
  · simpa [getPnL] using hmain
  · simp [getPnL]

/-- Fill sequence for the C8 witness and counterexample contexts:
buy 75 @ 100, sell 75 @ 110, brokerage rate 0.002. -/
def c8evs : List FillEv := [.buy ("S") 75 100 none, .sell ("S") 75 110 none]

theorem c8_witness :
    sumTradeRealized (runFills (1/500) BrokerState.init c8evs).trades
        = (getPnL (fun _ => none) (runFills (1/500) BrokerState.init c8evs)).realized ∧
      sumTradeBrokerage (runFills (1/500) BrokerState.init c8evs).trades
        = (getPnL (fun _ => none) (runFills (1/500) BrokerState.init c8evs)).brokerage :=
  c8_trade_log_sums (1/500) (fun _ => none) c8evs
    (by norm_num [c8evs, noShortCover, placeLimitBuy, applyBuyToPosition,
      buyPos, BrokerState.init, Trading.getPos, Trading.setPos,
      Trading.Position.flat])

/-- Concrete run for the C8 counterexample: gross realized is 750 but the
trade-log realized deltas sum to 735 (the 15-unit brokerage is already
netted into the SELL entry), refuting `sum(realized_delta) =
pnl.realized_gross`. -/
def c8cexRun : BrokerState := runFills (1/500) BrokerState.init
  [.buy ("X") 75 100 none, .sell ("X") 75 110 none]

/-- Claim C8 counterexample: `sum(realized_delta) = 735 ≠ 750 =
pnl.realized_gross` after one round trip with brokerage rate 0.002. -/
theorem c8_counterexample :
    sumTradeRealized c8cexRun.trades = 735 ∧
      (getPnL (fun _ => none) c8cexRun).grossRealized = 750 ∧
      sumTradeRealized c8cexRun.trades
        ≠ (getPnL (fun _ => none) c8cexRun).grossRealized := by
  norm_num [c8cexRun, runFills, placeLimitBuy, placeLimitSell,
    applyBuyToPosition, applySellToPosition, buyPos, sellPos, getPnL,
    sumTradeRealized, sumTradeBrokerage, Trading.sumRealized,
    BrokerState.init, Trading.getPos, Trading.setPos, Trading.Position.flat]

/-- Claim C9 (amended): in the instant-fill paper engine
(`applyBuyToPosition` / `applySellToPosition` of
`src/server/fyersClient.ts`), after any sequence of fills, every position
with quantity 0 has average price 0; the pending-order engine of
`src/unnamed/part_005` violates this (see the counterexample) by setting
`avgPrice` to the closing fill's limit price. -/
theorem c9_qty_zero_avg_zero (rate : ℚ) (evs : List FillEv) (sym : String)
    (h : (getPos (runFills rate BrokerState.init evs).positions sym).posQty = 0) :
    (getPos (runFills rate BrokerState.init evs).positions sym).avgPrice = 0 :=
  c9_aux rate evs BrokerState.init (fun _ _ => rfl) sym h

/-- Fill sequence for the C9 witness: a round trip ending flat. -/
def c9evs : List FillEv := [.buy ("S") 75 100 none, .sell ("S") 75 110 none]

theorem c9_witness :
    (getPos (runFills (1/500) BrokerState.init c9evs).positions ("S")).posQty = 0 ∧
      (getPos (runFills (1/500) BrokerState.init c9evs).positions ("S")).avgPrice = 0 :=
  ⟨by norm_num [c9evs, runFills, placeLimitBuy, placeLimitSell,
      applyBuyToPosition, applySellToPosition, buyPos, sellPos,
      BrokerState.init, Trading.getPos, Trading.setPos, Trading.Position.flat],
   c9_qty_zero_avg_zero (1/500) c9evs ("S")
    (by norm_num [c9evs, runFills, placeLimitBuy, placeLimitSell,
      applyBuyToPosition, applySellToPosition, buyPos, sellPos,
      BrokerState.init, Trading.getPos, Trading.setPos, Trading.Position.flat])⟩


/-! ## Quantity sizing (`computeQtyFromPnLContext`, `calculateQuantityForOrderValue`) -/

namespace Sizing

open Trading

/-- `computeQtyFromPnLContext` from `src/server/fyersClient.ts`:
`capital` is the `CAPITAL` env value, `lotSize` the instrument lot size
(`getLotSize(sym)`), `openQty` the broker's `getOpenQty(sym)`, `ltp` the
override or cached price.  If a position is open its absolute size is
reused; otherwise lots are `Math.floor(capital / (px * lot))`, clamped to
at least 1.  A missing or non-positive price falls back to `px = 100`. -/
def computeQtyFromPnLContext (capital : ℚ) (lotSize : ℤ) (openQty : ℤ)
    (ltp : Option ℚ) : ℤ :=
  let opn := |openQty|
  if opn > 0 then opn
  else
    let px : ℚ :=
      match ltp with
      | some l => if l > 0 then l else 100
      | none => 100
    let costPerLot := px * lotSize
    if costPerLot ≤ 0 then lotSize
    else
      let lots0 := ⌊capital / costPerLot⌋
      let lots := if lots0 < 1 then 1 else lots0
      lots * lotSize

/-- The `LOT_SIZES` table of `src/server/lotSize.ts`. -/
def LOT_SIZES : List (String × ℤ) := [("NIFTY", 75), ("BANKNIFTY", 35)]

def lookupLot : List (String × ℤ) → String → Option ℤ
  | [], _ => none
  | (s, n) :: rest, u => if s = u then some n else lookupLot rest u

/-- `getLotSize` (inputs assumed already upper-case; unknown underlying
throws in the source, modelled as `none`). -/
def getLotSize (underlying : String) : Option ℤ :=
  lookupLot LOT_SIZES underlying

/-- `calculateQuantityForOrderValue` from `src/server/quantityCalc.ts`:
throws on `ltp ≤ 0` (modelled as `none`), then rounds the number of lots
to the **nearest** integer (`Math.round`), clamped to at least 1. -/
def calculateQuantityForOrderValue (underlying : String) (ltp : ℚ)
    (targetValue : ℚ) : Option ℤ :=
  if ltp ≤ 0 then none
  else
    match getLotSize underlying with
    | none => none
    | some lot => some (max 1 (jsRound (targetValue / (ltp * lot))) * lot)

end Sizing

open Sizing

/-- Claim C7 (amended): `computeQtyFromPnLContext` returns `|open_qty|`
when a position is open and otherwise
`max(1, ⌊capital / (price * lot)⌋) * lot` — the claim's formula with
`floor`; the alternative sizing helper `calculateQuantityForOrderValue`
instead rounds the number of lots to the **nearest** integer
(`⌊tv / (price * lot) + 1/2⌋`) and has no open-quantity branch. -/
theorem c7_entry_quantity (capital : ℚ) (lotSize : ℤ) (openQty : ℤ) (l : ℚ) :
    (openQty ≠ 0 →
      ∀ ltp, computeQtyFromPnLContext capital lotSize openQty ltp = |openQty|)
    ∧ (openQty = 0 → 0 < l → 0 < lotSize →
        computeQtyFromPnLContext capital lotSize openQty (some l)
          = max 1 ⌊capital / (l * lotSize)⌋ * lotSize)
    ∧ (∀ u lot tv, getLotSize u = some lot → 0 < l →
        calculateQuantityForOrderValue u l tv
          = some (max 1 ⌊tv / (l * lot) + 1/2⌋ * lot)) := by
  refine ⟨?_, ?_, ?_⟩
  · intro h ltp
    have : |openQty| > 0 := abs_pos.mpr h
    simp [computeQtyFromPnLContext, this]
  · intro h hl hlot
    have hq : ¬(|openQty| > 0) := by simp [h]
    have hlotQ : (0 : ℚ) < (lotSize : ℚ) := by exact_mod_cast hlot
    have hcost : ¬(l * (lotSize : ℚ) ≤ 0) := not_le.mpr (mul_pos hl hlotQ)
    have hmax : ∀ x : ℤ, (if x < 1 then 1 else x) = max 1 x := by
      intro x
      omega
    simp only [computeQtyFromPnLContext, hq, if_false, if_pos hl, hcost, hmax]
  · intro u lot tv hu hl
    have : ¬(l ≤ 0) := not_le.mpr hl
    simp [calculateQuantityForOrderValue, this, hu, jsRound]

theorem c7_witness :
    computeQtyFromPnLContext 20000 75 0 (some 100) = 150 := by
  have h := (c7_entry_quantity 20000 75 0 100).2.1 rfl (by norm_num) (by norm_num)
  rw [h]
  norm_num

/-- Claim C7 counterexample: sizing NIFTY (lot 75) at price 800 with the
default target value 100000, `calculateQuantityForOrderValue` returns
`round(100000/60000) * 75 = 150`, while the claim's
`max(1, floor(capital / (price * lot))) * lot` gives 75. -/
theorem c7_counterexample :
    calculateQuantityForOrderValue ("NIFTY") 800 100000 = some 150 ∧
      max 1 ⌊(100000 : ℚ) / (800 * 75)⌋ * 75 = (75 : ℤ) ∧
      (150 : ℤ) ≠ 75 := by
  refine ⟨?_, ?_, by norm_num⟩
  · norm_num [calculateQuantityForOrderValue, getLotSize, lookupLot,
      LOT_SIZES, jsRound]
  · norm_num

/-! ## Per-symbol state machine (`src/unnamed/part_002`)

The machine of `src/unnamed/part_002` (a variant of
`server/stateMachine.ts`; the second variant in that file differs only in
the BUY-window timeout handler, the in-position exit tag and the flat
SELL-window threshold).  Broker reads (`getOpenQty`,
`computeQtyFromPnLContext`, `nowLtp`) and the wall clock (`Date.now()`)
are snapshotted into an `Env` per event, matching the synchronous reads
the handlers perform.  Orders are emitted as intents; fills are the
broker's business. -/

namespace SM

open Trading

inductive MachineState where
  | idle
  | inBuyWindow
  | inSellWindow
deriving DecidableEq, Repr

/-- A `placeLimitBuy` / `placeLimitSell` call emitted by the machine. -/
structure OrderIntent where
  side : Side
  qty : ℤ
  limitPrice : ℚ
  tag : String
deriving DecidableEq, Repr

/-- `SymbolMachine` fields plus the per-symbol `ANCHOR` record.
`curBuyAnchor` / `curBuyWindowEnd` are the `anchor` and `windowEnd`
values captured by the live BUY window's tick closure and timer. -/
structure Machine where
  state : MachineState
  sellInPosExitDone : Bool
  hadPositionOnSell : Bool
  buyWindowActive : Bool
  buySilenceUntil : Option ℤ
  sellLtpAnchor : Option ℚ
  savedBUYLTP : Option ℚ
  savedLastBUYLTP : Option ℚ
  pendingBuyAfterSell : Bool
  buyWindowIdxSinceSell : ℤ
  lastSellReason : Option String
  curBuyAnchor : ℚ
  curBuyWindowEnd : ℤ
deriving DecidableEq, Repr

/-- A freshly constructed machine. -/
def Machine.init : Machine :=
  ⟨.idle, false, false, false, none, none, none, none, false, 0, none, 0, 0⟩

/-- Values a handler reads synchronously during one event:
`now = Date.now()`, `cached = nowLtp(sym)`, `posQty = getOpenQty(sym)`,
`entryQty = computeQtyFromPnLContext(sym)` at the moment of the call. -/
structure Env where
  now : ℤ
  cached : Option ℚ
  posQty : ℤ
  entryQty : ℤ
deriving DecidableEq, Repr

def windowMs : ℤ := 60000

/-- `startBuyWindow(anchor)`: reset the BUY context (`clearBuyOnly`), set
both anchors to `anchor`, bump the window index, enter `IN_BUY_WINDOW`
and arm the 60-second window ending at `now + 60_000`. -/
def startBuyWindow (env : Env) (anchor : ℚ) (m : Machine) : Machine :=
  { m with
    buyWindowActive := true,
    buySilenceUntil := none,
    savedBUYLTP := some anchor,
    savedLastBUYLTP := some anchor,
    buyWindowIdxSinceSell := m.buyWindowIdxSinceSell + 1,
    state := .inBuyWindow,
    curBuyAnchor := anchor,
    curBuyWindowEnd := env.now + windowMs }

/-- The guard `if (this.buySilenceUntil && Date.now() < this.buySilenceUntil)`.
JavaScript numeric truthiness: `null` and `0` are both falsy. -/
def buySilenced (env : Env) (m : Machine) : Bool :=
  match m.buySilenceUntil with
  | some u => decide (u ≠ 0) && decide (env.now < u)
  | none => false

/-- `onBuySignal(sig, forcedAnchor?)`: silenced signals are dropped;
otherwise clear `pendingBuyAfterSell`, overwrite `savedBUYLTP` with
`forcedAnchor ?? ltp`, place the pre-window entry BUY at
`roundPrice(saved + 0.5)`, and start a BUY window only from `IDLE`. -/
def onBuySignal (env : Env) (ltp : ℚ) (forcedAnchor : Option ℚ) (m : Machine) :
    Machine × List OrderIntent :=
  if buySilenced env m then (m, [])
  else
    let m1 := if m.pendingBuyAfterSell then { m with pendingBuyAfterSell := false } else m
    let saved := forcedAnchor.getD ltp
    let m2 := { m1 with savedBUYLTP := some saved }
    let orders : List OrderIntent :=
      [⟨.buy, env.entryQty, roundPrice (saved + 1/2), "BUY_SIGNAL_PREWINDOW"⟩]
    if m2.state = .idle then (startBuyWindow env saved m2, orders)
    else (m2, orders)

/-- `startSellWindowInPosition`: enter the SELL window and arm the
first-tick exit. -/
def startSellWindowInPosition (m : Machine) : Machine :=
  { m with state := .inSellWindow, sellInPosExitDone := false }

/-- `flipToBuyFromSell(forcedAnchor, tag)`: set both BUY anchors, place
an entry BUY at `roundPrice(forcedAnchor + 0.5)` and start a BUY window
anchored there. -/
def flipToBuyFromSell (env : Env) (forcedAnchor : ℚ) (tag : String)
    (m : Machine) : Machine × List OrderIntent :=
  let m1 := { m with
    savedBUYLTP := some forcedAnchor, savedLastBUYLTP := some forcedAnchor }
  (startBuyWindow env forcedAnchor m1,
    [⟨.buy, env.entryQty, roundPrice (forcedAnchor + 1/2), tag⟩])

/-- `startSellWindowFlat`: enter the SELL window and run the two
START-OF-WINDOW checks **once**, against the cached price:
breakout above `roundPrice(sellLtp + 0.5)` flips to a BUY window with
forced anchor `roundPrice(sellLtp + 1.0)` (tag `SELL_FLAT_BREAKOUT`);
otherwise a cached price below `savedLastBUYLTP` flips with anchor
`roundPrice(startLtp)` (tag `SELL_FLAT_REENTRY_DISCOUNT`); otherwise
stand aside for the whole window.  No tick handler is registered. -/
def startSellWindowFlat (env : Env) (m : Machine) : Machine × List OrderIntent :=
  let sellLtp := m.sellLtpAnchor.getD (env.cached.getD 0)
  let m1 := { m with sellLtpAnchor := some sellLtp, state := .inSellWindow }
  let breakoutPx := roundPrice (sellLtp + 1/2)
  let startLtp := env.cached.getD sellLtp
  if startLtp > breakoutPx then
    flipToBuyFromSell env (roundPrice (sellLtp + 1)) ("SELL_FLAT_BREAKOUT")
      { m1 with state := .idle }
  else
    match m1.savedLastBUYLTP with
    | some lastBuyRef =>
        if startLtp < lastBuyRef then
          flipToBuyFromSell env (roundPrice startLtp) ("SELL_FLAT_REENTRY_DISCOUNT")
            { m1 with state := .idle }
        else (m1, [])
    | none => (m1, [])

/-- `onSellSignal`: capture the SELL anchor, mark the first-BUY-after-SELL
flag, record `hadPositionOnSell = openQty > 0`, clear the SELL timer
context, and open the in-position or flat SELL window. -/
def onSellSignal (env : Env) (ltp : ℚ) (reason : Option String) (m : Machine) :
    Machine × List OrderIntent :=
  let hadPos := decide (env.posQty > 0)
  let m1 := { m with
    sellLtpAnchor := some ltp,
    pendingBuyAfterSell := true,
    buyWindowIdxSinceSell := 0,
    lastSellReason := some (reason.getD ("GENERIC")),
    hadPositionOnSell := hadPos,
    sellInPosExitDone := false }
  if hadPos then (startSellWindowInPosition m1, [])
  else startSellWindowFlat env m1

/-- Tick closure of the in-position SELL window: on the first tick (any
price), exit the full open quantity at `roundPrice(tick - 0.5)` with tag
`SELL_INPOS_IMMEDIATE_EXIT`; every later tick is ignored
(`sellInPosExitDone`). -/
def sellInPosTick (env : Env) (tick : ℚ) (m : Machine) :
    Machine × List OrderIntent :=
  if m.sellInPosExitDone then (m, [])
  else
    let qty := env.posQty
    if qty > 0 then
      ({ m with sellInPosExitDone := true },
       [⟨.sell, qty, roundPrice (tick - 1/2), "SELL_INPOS_IMMEDIATE_EXIT"⟩])
    else
      ({ m with sellInPosExitDone := true }, [])

/-- Tick closure of the BUY window (identical in `part_002` and in the
second variant of `server/stateMachine.ts`): stop-out below
`roundPrice(anchor - 0.5)` exits the open quantity (if any) at
`roundPrice(tick - 0.5)`, goes IDLE and silences BUY signals until the
window's original deadline; a flat breakout above the anchor re-enters at
`roundPrice(tick + 0.5)` and restarts the window with the same anchor. -/
def buyWindowTick (env : Env) (tick : ℚ) (m : Machine) :
    Machine × List OrderIntent :=
  let anchorPx := m.savedBUYLTP.getD m.curBuyAnchor
  if tick < roundPrice (anchorPx - 1/2) then
    let qty := env.posQty
    let orders : List OrderIntent :=
      if qty > 0 then
        [⟨.sell, qty, roundPrice (tick - 1/2), "BUY_WINDOW_STOP_OUT"⟩]
      else []
    ({ m with
        buyWindowActive := false,
        state := .idle,
        buySilenceUntil := some m.curBuyWindowEnd }, orders)
  else if env.posQty = 0 ∧ tick > anchorPx then
    let m1 := { m with
      buyWindowActive := false, state := .idle, buySilenceUntil := none }
    (startBuyWindow env anchorPx m1,
     [⟨.buy, env.entryQty, roundPrice (tick + 1/2), "BUY_WINDOW_BREAKOUT_REENTER"⟩])
  else (m, [])

/-- Machine-level tick delivery.  Each registered tick closure guards on
the current machine state, so which closure acts is a function of that
state: the in-position SELL closure requires `IN_SELL_WINDOW` and
`hadPositionOnSell`; the BUY closure requires `IN_BUY_WINDOW` and
`buyWindowActive`; a flat SELL window registers no tick handler. -/
def machineOnTick (env : Env) (tick : ℚ) (m : Machine) :
    Machine × List OrderIntent :=
  match m.state with
  | .inSellWindow =>
      if m.hadPositionOnSell then sellInPosTick env tick m else (m, [])
  | .inBuyWindow =>
      if m.buyWindowActive then buyWindowTick env tick m else (m, [])
  | .idle => (m, [])

/-- Timer of the flat SELL window: if still in the SELL window, restart a
flat SELL window with the same anchor. -/
def sellFlatOnTimeout (env : Env) (m : Machine) : Machine × List OrderIntent :=
  if m.state = .inSellWindow then startSellWindowFlat env m else (m, [])

/-- Timer of the in-position SELL window: back to IDLE. -/
def sellInPosOnTimeout (m : Machine) : Machine :=
  { m with state := .idle, sellInPosExitDone := false, hadPositionOnSell := false }

/-- BUY-window timeout handler of the **second variant** in
`src/server/stateMachine.ts` (the `part_002` variant goes straight to
IDLE instead): clear any stop-out silence; if flat and the cached LTP is
above the anchor, place a BUY at `roundPrice(ltp + 0.5)` (tag
`BUY_TIMEOUT_BREAKOUT_REENTER`) and start a new window with the same
anchor; otherwise go IDLE. -/
def buyWindowOnTimeout (env : Env) (m : Machine) : Machine × List OrderIntent :=
  let m1 := { m with buyWindowActive := false, buySilenceUntil := none }
  let anchorPx := m1.savedBUYLTP.getD m1.curBuyAnchor
  let ltpNow := env.cached.getD anchorPx
  if env.posQty = 0 ∧ ltpNow > anchorPx then
    (startBuyWindow env anchorPx { m1 with state := .idle },
     [⟨.buy, env.entryQty, roundPrice (ltpNow + 1/2), "BUY_TIMEOUT_BREAKOUT_REENTER"⟩])
  else
    ({ m1 with state := .idle }, [])

/-- Deliver a list of (env, tick) events, collecting emitted orders. -/
def runTicks : Machine → List (Env × ℚ) → Machine × List OrderIntent
  | m, [] => (m, [])
  | m, (e, t) :: rest =>
      let r := machineOnTick e t m
      let r2 := runTicks r.1 rest
      (r2.1, r.2 ++ r2.2)

theorem runTicks_sellDone (m : Machine) (l : List (Env × ℚ))
    (hst : m.state = .inSellWindow) (hdone : m.sellInPosExitDone = true) :
    runTicks m l = (m, []) := by
  induction l with
  | nil => rfl
  | cons p rest ih =>
      have hstep : machineOnTick p.1 p.2 m = (m, []) := by
        cases hhad : m.hadPositionOnSell <;>
          simp [machineOnTick, hst, hhad, sellInPosTick, hdone]
      obtain ⟨e, t⟩ := p
      simp [runTicks, hstep, ih]

end SM


namespace SM

/-- Machine after the stop-out branch of the BUY-window tick closure. -/
def stopOutResult (m : Machine) : Machine :=
  { m with
    buyWindowActive := false,
    state := .idle,
    buySilenceUntil := some m.curBuyWindowEnd }

theorem buyWindowTick_stopOut (env : Env) (m : Machine) (A : ℚ) (t : ℚ)
    (hanchor : m.savedBUYLTP = some A) (ht : t < roundPrice (A - 1/2)) :
    buyWindowTick env t m
      = (stopOutResult m,
          if 0 < env.posQty then
            [⟨.sell, env.posQty, roundPrice (t - 1/2), "BUY_WINDOW_STOP_OUT"⟩]
          else []) := by
  simp only [buyWindowTick, hanchor, Option.getD_some]
  rw [if_pos ht]
  simp only [stopOutResult, hanchor]

theorem machineOnTick_buy (env : Env) (t : ℚ) (m : Machine)
    (hst : m.state = .inBuyWindow) (hact : m.buyWindowActive = true) :
    machineOnTick env t m = buyWindowTick env t m := by
  simp [machineOnTick, hst, hact]

end SM

open SM

/-- Claim C2: in a BUY window with anchor `A` and original deadline `W`,
a tick `t < roundPrice(A - 0.5)` while `open_qty > 0` emits exactly one
SELL for the full open quantity at `roundPrice(t - 0.5)` with tag
`BUY_WINDOW_STOP_OUT`, moves the machine to IDLE and silences BUY signals
until `W`; a BUY signal before `W` is dropped unchanged, and one at or
after `W` is accepted normally (entry placed, window opened). -/
theorem c2_stop_out_and_silence (env : Env) (m : Machine) (A : ℚ) (W : ℤ)
    (t : ℚ) (hst : m.state = .inBuyWindow) (hact : m.buyWindowActive = true)
    (hanchor : m.savedBUYLTP = some A) (hend : m.curBuyWindowEnd = W)
    (hW : 0 < W) (hq : 0 < env.posQty) (ht : t < roundPrice (A - 1/2)) :
    (machineOnTick env t m).2
        = [⟨.sell, env.posQty, roundPrice (t - 1/2), "BUY_WINDOW_STOP_OUT"⟩] ∧
      (machineOnTick env t m).1.state = .idle ∧
      (machineOnTick env t m).1.buySilenceUntil = some W ∧
      (machineOnTick env t m).1.buyWindowActive = false ∧
      (∀ env2 ltp2 fa, env2.now < W →
        onBuySignal env2 ltp2 fa (machineOnTick env t m).1
          = ((machineOnTick env t m).1, [])) ∧
      (∀ env2 ltp2, W ≤ env2.now →
        (onBuySignal env2 ltp2 none (machineOnTick env t m).1).2
            = [⟨.buy, env2.entryQty, roundPrice (ltp2 + 1/2),
                "BUY_SIGNAL_PREWINDOW"⟩] ∧
          (onBuySignal env2 ltp2 none (machineOnTick env t m).1).1.state
            = .inBuyWindow) := by
  rw [machineOnTick_buy env t m hst hact, buyWindowTick_stopOut env m A t hanchor ht]
  rw [if_pos hq]
  refine ⟨rfl, rfl, ?_, rfl, ?_, ?_⟩
  · simp [stopOutResult, hend]
  · intro env2 ltp2 fa h2
    have hWne : W ≠ 0 := by omega
    simp [onBuySignal, buySilenced, stopOutResult, hend, hWne, h2]
  · intro env2 ltp2 h2
    have hnl : ¬(env2.now < W) := not_lt.mpr h2
    by_cases hp : m.pendingBuyAfterSell <;>
      simp [onBuySignal, buySilenced, stopOutResult, hend, hnl, hp, startBuyWindow]

/-- Machine sitting in a BUY window anchored at 100 (deadline 60000),
reached by a BUY signal at price 100 on a fresh machine. -/
def c2m : Machine := (onBuySignal ⟨0, none, 0, 75⟩ 100 none Machine.init).1

/-- Tick event during the C2 window: open quantity 75. -/
def c2env : Env := ⟨10000, none, 75, 75⟩

theorem c2_witness :
    (machineOnTick c2env (99 : ℚ) c2m).2
        = [⟨.sell, 75, roundPrice ((99 : ℚ) - 1/2), "BUY_WINDOW_STOP_OUT"⟩] ∧
      (machineOnTick c2env 99 c2m).1.buySilenceUntil = some 60000 ∧
      onBuySignal ⟨30000, none, 0, 75⟩ 101 none (machineOnTick c2env 99 c2m).1
        = ((machineOnTick c2env 99 c2m).1, []) ∧
      (onBuySignal ⟨60000, none, 0, 75⟩ 101 none
          (machineOnTick c2env 99 c2m).1).1.state = .inBuyWindow := by
  have h := c2_stop_out_and_silence c2env c2m 100 60000 99
    (by norm_num [c2m, onBuySignal, buySilenced, startBuyWindow, Machine.init])
    (by norm_num [c2m, onBuySignal, buySilenced, startBuyWindow, Machine.init])
    (by norm_num [c2m, onBuySignal, buySilenced, startBuyWindow, Machine.init])
    (by norm_num [c2m, onBuySignal, buySilenced, startBuyWindow, Machine.init,
      windowMs])
    (by norm_num) (by norm_num [c2env])
    (by norm_num [Trading.roundPrice, Trading.jsRound])
  exact ⟨h.1, h.2.2.1, h.2.2.2.2.1 ⟨30000, none, 0, 75⟩ 101 none (by norm_num),
    (h.2.2.2.2.2 ⟨60000, none, 0, 75⟩ 101 (by norm_num)).2⟩

/-- Claim C10 (implicit behavior): in a BUY window with anchor `A` and
deadline `W`, a tick `t < roundPrice(A - 0.5)` arriving while flat
(`open_qty = 0`) still ends the window: no order is emitted, the machine
transitions to IDLE, and BUY signals are silenced until `W` — instead of
holding as the spec's ordered rules would imply. -/
theorem c10_flat_stop_out_ends_window (env : Env) (m : Machine) (A : ℚ)
    (W : ℤ) (t : ℚ) (hst : m.state = .inBuyWindow)
    (hact : m.buyWindowActive = true) (hanchor : m.savedBUYLTP = some A)
    (hend : m.curBuyWindowEnd = W) (hW : 0 < W) (hq : env.posQty = 0)
    (ht : t < roundPrice (A - 1/2)) :
    (machineOnTick env t m).2 = [] ∧
      (machineOnTick env t m).1.state = .idle ∧
      (machineOnTick env t m).1.buySilenceUntil = some W ∧
      (machineOnTick env t m).1.buyWindowActive = false ∧
      (∀ env2 ltp2 fa, env2.now < W →
        onBuySignal env2 ltp2 fa (machineOnTick env t m).1
          = ((machineOnTick env t m).1, [])) := by
  rw [machineOnTick_buy env t m hst hact, buyWindowTick_stopOut env m A t hanchor ht]
  rw [if_neg (by omega)]
  refine ⟨rfl, rfl, ?_, rfl, ?_⟩
  · simp [stopOutResult, hend]
  · intro env2 ltp2 fa h2
    have hWne : W ≠ 0 := by omega
    simp [onBuySignal, buySilenced, stopOutResult, hend, hWne, h2]

/-- Machine in a BUY window anchored at 100 for the C10 witness. -/
def c10m : Machine := (onBuySignal ⟨0, none, 0, 75⟩ 100 none Machine.init).1

/-- Tick event during the C10 window: flat. -/
def c10env : Env := ⟨10000, none, 0, 75⟩

theorem c10_witness :
    (machineOnTick c10env (99 : ℚ) c10m).2 = [] ∧
      (machineOnTick c10env 99 c10m).1.state = .idle ∧
      (machineOnTick c10env 99 c10m).1.buySilenceUntil = some 60000 := by
  have h := c10_flat_stop_out_ends_window c10env c10m 100 60000 99
    (by norm_num [c10m, onBuySignal, buySilenced, startBuyWindow, Machine.init])
    (by norm_num [c10m, onBuySignal, buySilenced, startBuyWindow, Machine.init])
    (by norm_num [c10m, onBuySignal, buySilenced, startBuyWindow, Machine.init])
    (by norm_num [c10m, onBuySignal, buySilenced, startBuyWindow, Machine.init,
      windowMs])
    (by norm_num) (by norm_num [c10env])
    (by norm_num [Trading.roundPrice, Trading.jsRound])
  exact ⟨h.1, h.2.1, h.2.2.1⟩

/-- Claim C3: a SELL signal while `open_qty > 0` opens the in-position
SELL window placing no immediate order; the first tick after the signal,
whatever its price, emits exactly one SELL for the full open quantity at
`roundPrice(tick - 0.5)` with tag `SELL_INPOS_IMMEDIATE_EXIT`, and every
further tick in that SELL window emits no order. -/
theorem c3_sell_inpos_first_tick_exit (env0 : Env) (ltp : ℚ)
    (r : Option String) (m0 : Machine) (e : Env) (t : ℚ)
    (rest : List (Env × ℚ)) (h0 : 0 < env0.posQty) (he : 0 < e.posQty) :
    (onSellSignal env0 ltp r m0).2 = [] ∧
      (onSellSignal env0 ltp r m0).1.state = .inSellWindow ∧
      (machineOnTick e t (onSellSignal env0 ltp r m0).1).2
        = [⟨.sell, e.posQty, roundPrice (t - 1/2), "SELL_INPOS_IMMEDIATE_EXIT"⟩] ∧
      (machineOnTick e t (onSellSignal env0 ltp r m0).1).1.state
        = .inSellWindow ∧
      (runTicks (machineOnTick e t (onSellSignal env0 ltp r m0).1).1 rest).2
        = [] := by
  have hm1 : onSellSignal env0 ltp r m0
      = ({ m0 with
            sellLtpAnchor := some ltp,
            pendingBuyAfterSell := true,
            buyWindowIdxSinceSell := 0,
            lastSellReason := some (r.getD ("GENERIC")),
            hadPositionOnSell := true,
            sellInPosExitDone := false,
            state := .inSellWindow }, []) := by
    simp [onSellSignal, h0, startSellWindowInPosition]
  rw [hm1]
  have htick : machineOnTick e t
      { m0 with
        sellLtpAnchor := some ltp,
        pendingBuyAfterSell := true,
        buyWindowIdxSinceSell := 0,
        lastSellReason := some (r.getD ("GENERIC")),
        hadPositionOnSell := true,
        sellInPosExitDone := false,
        state := .inSellWindow }
      = ({ m0 with
            sellLtpAnchor := some ltp,
            pendingBuyAfterSell := true,
            buyWindowIdxSinceSell := 0,
            lastSellReason := some (r.getD ("GENERIC")),
            hadPositionOnSell := true,
            sellInPosExitDone := true,
            state := .inSellWindow },
          [⟨.sell, e.posQty, roundPrice (t - 1/2), "SELL_INPOS_IMMEDIATE_EXIT"⟩]) := by
    simp [machineOnTick, sellInPosTick, he]
  rw [htick]
  refine ⟨rfl, rfl, rfl, rfl, ?_⟩
  rw [runTicks_sellDone _ rest rfl rfl]

theorem c3_witness :
    (machineOnTick ⟨2000, none, 75, 75⟩ (516/5)
        (onSellSignal ⟨0, none, 75, 75⟩ 103 none Machine.init).1).2
      = [⟨.sell, 75, roundPrice ((516/5 : ℚ) - 1/2), "SELL_INPOS_IMMEDIATE_EXIT"⟩] ∧
    (runTicks (machineOnTick ⟨2000, none, 75, 75⟩ (516/5)
        (onSellSignal ⟨0, none, 75, 75⟩ 103 none Machine.init).1).1
        [(⟨3000, none, 0, 75⟩, 104)]).2 = [] := by
  have h := c3_sell_inpos_first_tick_exit ⟨0, none, 75, 75⟩ 103 none Machine.init
    ⟨2000, none, 75, 75⟩ (516/5) [(⟨3000, none, 0, 75⟩, 104)]
    (by norm_num) (by norm_num)
  exact ⟨h.2.2.1, h.2.2.2.2⟩

/-- Flat SELL window for the C4 counterexample: SELL signal at 50 while
flat with cached price 50 — the start-of-window checks do not fire. -/
def c4m : Machine := (onSellSignal ⟨0, some 50, 0, 75⟩ 50 none Machine.init).1

/-- Claim C4 counterexample: the machine stands in the flat SELL window
(anchor 50); a tick 50.6 arrives, which crosses
`roundPrice(50 + 0.5) = 50.5` — yet nothing happens: no order is emitted,
no BUY window is opened, the machine stays in the SELL window.  The
breakout check of `startSellWindowFlat` runs only once, at the start of
the window, against the cached price. -/
theorem c4_counterexample :
    (253/5 : ℚ) > roundPrice ((50 : ℚ) + 1/2) ∧
      c4m.state = .inSellWindow ∧
      c4m.sellLtpAnchor = some 50 ∧
      machineOnTick ⟨5000, some (253/5), 0, 75⟩ (253/5) c4m = (c4m, []) := by
  refine ⟨by norm_num [Trading.roundPrice, Trading.jsRound], ?_, ?_, ?_⟩
  · norm_num [c4m, onSellSignal, startSellWindowFlat, flipToBuyFromSell,
      startBuyWindow, Machine.init, Trading.roundPrice, Trading.jsRound]
  · norm_num [c4m, onSellSignal, startSellWindowFlat, flipToBuyFromSell,
      startBuyWindow, Machine.init, Trading.roundPrice, Trading.jsRound]
  · have hst : c4m.state = .inSellWindow := by
      norm_num [c4m, onSellSignal, startSellWindowFlat, flipToBuyFromSell,
        startBuyWindow, Machine.init, Trading.roundPrice, Trading.jsRound]
    have hhad : c4m.hadPositionOnSell = false := by
      norm_num [c4m, onSellSignal, startSellWindowFlat, flipToBuyFromSell,
        startBuyWindow, Machine.init, Trading.roundPrice, Trading.jsRound]
    simp [machineOnTick, hst, hhad]

/-- Claim C4 (amended): the flat SELL window's breakout check runs once,
at window start (and again at each 60-second restart), against the cached
price: if `cached > roundPrice(saved_sell_ltp + 0.5)`, the SELL window is
abandoned and a BUY window opens with forced anchor
`roundPrice(saved_sell_ltp + 1.0)`, placing an entry BUY at
`roundPrice(anchor + 0.5)` with tag `SELL_FLAT_BREAKOUT`; ticks arriving
during a standing flat SELL window trigger nothing. -/
theorem c4_flat_sell_start_check (env : Env) (m : Machine) (L p : ℚ)
    (hanchor : m.sellLtpAnchor = some L) (hc : env.cached = some p)
    (hbreak : p > roundPrice (L + 1/2)) :
    (startSellWindowFlat env m).2
        = [⟨.buy, env.entryQty, roundPrice (roundPrice (L + 1) + 1/2),
            "SELL_FLAT_BREAKOUT"⟩] ∧
      (startSellWindowFlat env m).1.state = .inBuyWindow ∧
      (startSellWindowFlat env m).1.savedBUYLTP = some (roundPrice (L + 1)) ∧
      (startSellWindowFlat env m).1.curBuyWindowEnd = env.now + windowMs ∧
      (∀ e t m', m'.state = .inSellWindow → m'.hadPositionOnSell = false →
        machineOnTick e t m' = (m', [])) := by
  have hflat : startSellWindowFlat env m
      = flipToBuyFromSell env (roundPrice (L + 1)) ("SELL_FLAT_BREAKOUT")
          { m with
            sellLtpAnchor := some L,
            state := .idle } := by
    simp only [startSellWindowFlat, hanchor, hc, Option.getD_some]
    rw [if_pos hbreak]
  rw [hflat]
  refine ⟨rfl, rfl, rfl, rfl, ?_⟩
  intro e t m' hst hhad
  simp [machineOnTick, hst, hhad]

theorem c4_witness :
    (startSellWindowFlat ⟨60000, some (253/5), 0, 75⟩ c4m).2
        = [⟨.buy, 75, roundPrice (roundPrice ((50 : ℚ) + 1) + 1/2),
            "SELL_FLAT_BREAKOUT"⟩] ∧
      (startSellWindowFlat ⟨60000, some (253/5), 0, 75⟩ c4m).1.state
        = .inBuyWindow ∧
      (startSellWindowFlat ⟨60000, some (253/5), 0, 75⟩ c4m).1.savedBUYLTP
        = some (roundPrice ((50 : ℚ) + 1)) := by
  have h := c4_flat_sell_start_check ⟨60000, some (253/5), 0, 75⟩ c4m 50 (253/5)
    (by norm_num [c4m, onSellSignal, startSellWindowFlat, flipToBuyFromSell,
      startBuyWindow, Machine.init, Trading.roundPrice, Trading.jsRound])
    (by norm_num)
    (by norm_num [Trading.roundPrice, Trading.jsRound])
  exact ⟨h.1, h.2.1, h.2.2.1⟩

/-- Claim C5: at BUY-window expiry with anchor `A` (second variant of
`server/stateMachine.ts`): if still flat and the cached last price is
above `A`, the machine places a BUY at `roundPrice(ltp + 0.5)` (tag
`BUY_TIMEOUT_BREAKOUT_REENTER`) and opens a new BUY window with the same
anchor; in every other case it transitions to IDLE with no order. -/
theorem c5_buy_window_expiry (env : Env) (m : Machine) (A : ℚ)
    (hanchor : m.savedBUYLTP = some A) :
    (∀ p, env.cached = some p → env.posQty = 0 → p > A →
      (buyWindowOnTimeout env m).2
          = [⟨.buy, env.entryQty, roundPrice (p + 1/2),
              "BUY_TIMEOUT_BREAKOUT_REENTER"⟩] ∧
        (buyWindowOnTimeout env m).1.state = .inBuyWindow ∧
        (buyWindowOnTimeout env m).1.savedBUYLTP = some A ∧
        (buyWindowOnTimeout env m).1.buyWindowActive = true ∧
        (buyWindowOnTimeout env m).1.curBuyWindowEnd = env.now + windowMs)
    ∧ (¬(env.posQty = 0 ∧ env.cached.getD A > A) →
        (buyWindowOnTimeout env m).2 = [] ∧
          (buyWindowOnTimeout env m).1.state = .idle ∧
          (buyWindowOnTimeout env m).1.buySilenceUntil = none) := by
  constructor
  · intro p hc h0 hgt
    have hkey : buyWindowOnTimeout env m
        = (startBuyWindow env A
            { m with
              buyWindowActive := false,
              buySilenceUntil := none,
              state := .idle },
           [⟨.buy, env.entryQty, roundPrice (p + 1/2),
              "BUY_TIMEOUT_BREAKOUT_REENTER"⟩]) := by
      simp only [buyWindowOnTimeout, hanchor, hc, Option.getD_some]
      rw [if_pos ⟨h0, hgt⟩]
    rw [hkey]
    exact ⟨rfl, rfl, rfl, rfl, rfl⟩
  · intro hn
    have hkey : buyWindowOnTimeout env m
        = ({ m with
              buyWindowActive := false,
              buySilenceUntil := none,
              state := .idle }, []) := by
      simp only [buyWindowOnTimeout, hanchor, Option.getD_some]
      rw [if_neg hn]
    rw [hkey]
    exact ⟨rfl, rfl, rfl⟩

/-- Machine in a BUY window anchored at 100 for the C5 witness. -/
def c5m : Machine := (onBuySignal ⟨0, none, 0, 75⟩ 100 none Machine.init).1

theorem c5_witness :
    (buyWindowOnTimeout ⟨60000, some 102, 0, 75⟩ c5m).2
        = [⟨.buy, 75, roundPrice ((102 : ℚ) + 1/2),
            "BUY_TIMEOUT_BREAKOUT_REENTER"⟩] ∧
      (buyWindowOnTimeout ⟨60000, some 102, 0, 75⟩ c5m).1.state
        = .inBuyWindow ∧
      (buyWindowOnTimeout ⟨60000, some 99, 0, 75⟩ c5m).2 = [] ∧
      (buyWindowOnTimeout ⟨60000, some 99, 0, 75⟩ c5m).1.state = .idle := by
  have hanchor : c5m.savedBUYLTP = some 100 := by
    norm_num [c5m, onBuySignal, buySilenced, startBuyWindow, Machine.init]
  have h1 := (c5_buy_window_expiry ⟨60000, some 102, 0, 75⟩ c5m 100 hanchor).1
    102 rfl rfl (by norm_num)
  have h2 := (c5_buy_window_expiry ⟨60000, some 99, 0, 75⟩ c5m 100 hanchor).2
    (by norm_num)
  exact ⟨h1.1, h1.2.1, h2.1, h2.2.1⟩

/-- Claim C6 (amended): a non-silenced BUY signal opens a BUY window when
the machine is IDLE; when a BUY window is already running, no new window
is started (window index, captured anchor and deadline are untouched) —
but the signal is **not** a pure no-op on the window: it overwrites
`savedBUYLTP` (the anchor the tick watcher reads) with the signal price
and places a pre-window BUY at `roundPrice(price + 0.5)`. -/
theorem c6_buy_signal_frame (env : Env) (ltp : ℚ) (m : Machine)
    (hs : buySilenced env m = false) :
    (m.state = .idle →
      (onBuySignal env ltp none m).1.state = .inBuyWindow ∧
        (onBuySignal env ltp none m).1.buyWindowIdxSinceSell
          = m.buyWindowIdxSinceSell + 1 ∧
        (onBuySignal env ltp none m).1.curBuyAnchor = ltp ∧
        (onBuySignal env ltp none m).1.curBuyWindowEnd = env.now + windowMs ∧
        (onBuySignal env ltp none m).2
          = [⟨.buy, env.entryQty, roundPrice (ltp + 1/2),
              "BUY_SIGNAL_PREWINDOW"⟩])
    ∧ (m.state = .inBuyWindow →
      (onBuySignal env ltp none m).1.state = .inBuyWindow ∧
        (onBuySignal env ltp none m).1.buyWindowIdxSinceSell
          = m.buyWindowIdxSinceSell ∧
        (onBuySignal env ltp none m).1.curBuyAnchor = m.curBuyAnchor ∧
        (onBuySignal env ltp none m).1.curBuyWindowEnd = m.curBuyWindowEnd ∧
        (onBuySignal env ltp none m).1.buyWindowActive = m.buyWindowActive ∧
        (onBuySignal env ltp none m).1.savedBUYLTP = some ltp ∧
        (onBuySignal env ltp none m).2
          = [⟨.buy, env.entryQty, roundPrice (ltp + 1/2),
              "BUY_SIGNAL_PREWINDOW"⟩]) := by
  constructor
  · intro hidle
    by_cases hp : m.pendingBuyAfterSell <;>
      simp [onBuySignal, hs, hp, hidle, startBuyWindow]
  · intro hbuy
    by_cases hp : m.pendingBuyAfterSell <;>
      simp [onBuySignal, hs, hp, hbuy, startBuyWindow]

/-- First BUY signal of the C6 counterexample: opens a window at 100. -/
def c6m1 : Machine := (onBuySignal ⟨0, none, 0, 75⟩ 100 none Machine.init).1

/-- Second BUY signal, at price 90, while the window is running. -/
def c6m2 : Machine := (onBuySignal ⟨1000, none, 0, 75⟩ 90 none c6m1).1

/-- Claim C6 counterexample: the second BUY signal arrives inside the
running window.  No new window is started (index and deadline are
unchanged) — but `savedBUYLTP` is overwritten from 100 to 90 and an order
is placed, so the running window is **not** left intact as claimed. -/
theorem c6_counterexample :
    c6m1.state = .inBuyWindow ∧
      c6m1.savedBUYLTP = some 100 ∧
      c6m2.state = .inBuyWindow ∧
      c6m2.buyWindowIdxSinceSell = c6m1.buyWindowIdxSinceSell ∧
      c6m2.curBuyWindowEnd = c6m1.curBuyWindowEnd ∧
      c6m2.savedBUYLTP = some 90 ∧
      c6m2.savedBUYLTP ≠ c6m1.savedBUYLTP ∧
      (onBuySignal ⟨1000, none, 0, 75⟩ 90 none c6m1).2 ≠ [] := by
  norm_num [c6m1, c6m2, onBuySignal, buySilenced, startBuyWindow, Machine.init,
    (by decide : ¬(MachineState.inBuyWindow = MachineState.idle))]

theorem c6_witness :
    (onBuySignal ⟨0, none, 0, 75⟩ 100 none Machine.init).1.state
        = .inBuyWindow ∧
      (onBuySignal ⟨0, none, 0, 75⟩ 100 none Machine.init).2
        = [⟨.buy, 75, roundPrice ((100 : ℚ) + 1/2), "BUY_SIGNAL_PREWINDOW"⟩] := by
  have h := (c6_buy_signal_frame ⟨0, none, 0, 75⟩ 100 Machine.init
    (by norm_num [buySilenced, Machine.init])).1 rfl
  exact ⟨h.1, h.2.2.2.2⟩

end Trading
